import Mathlib

/-!
Verification development for the SimpleChores integration
(`custom_components/SimpleChores`): a shallow embedding of the data model
(`models.py`), the coordinator operations (`coordinator.py`) and the
point-reward claim path of the service layer (`__init__.py`), together with
theorems settling the specification claims about the chore/approval state
machine, the points ledger and the reward-progress engine.

Python dicts are embedded as association lists (`Dict α`): lookup returns
the first binding, assignment replaces in place or appends at the end, and
`pop` removes the binding — matching insertion-ordered `dict` semantics.
Timestamps (`datetime.now().timestamp()`) are abstracted as a `Nat`
parameter `now`; calendar dates (`YYYY-MM-DD` strings parsed with
`strptime`) are embedded as a `Date` structure whose `toOrdinal` mirrors
Python's proleptic-Gregorian `date.toordinal`, so that Python date
subtraction `(d1 - d2).days` becomes `daysDiff`.
-/

namespace SimpleChores

/-- Association-list embedding of a Python `dict[str, α]`. -/
abbrev Dict (α : Type) : Type := List (String × α)

/-- `d.get(k)` / `k in d`: first binding for `k`, if any. -/
def dictGet {α : Type} (m : Dict α) (k : String) : Option α :=
  match m with
  | [] => none
  | (k', v) :: rest => if k' = k then some v else dictGet rest k

/-- `d[k] = v`: replace the binding in place, or append a new one at the end
(insertion-ordered `dict` assignment). -/
def dictSet {α : Type} (m : Dict α) (k : String) (v : α) : Dict α :=
  match m with
  | [] => [(k, v)]
  | (k', v') :: rest => if k' = k then (k, v) :: rest else (k', v') :: dictSet rest k v

/-- `d.pop(k)`: remove the binding for `k`. -/
def dictPop {α : Type} (m : Dict α) (k : String) : Dict α :=
  match m with
  | [] => []
  | (k', v') :: rest => if k' = k then rest else (k', v') :: dictPop rest k

/-! ## Calendar dates

Embedding of Python `datetime.date` values as used by the streak logic in
`update_reward_progress`: the code parses `YYYY-MM-DD` strings with
`strptime` and subtracts dates, which in Python is a difference of
proleptic-Gregorian ordinals. -/

/-- A calendar date, the parse of a `YYYY-MM-DD` string. -/
structure Date where
  year : Nat
  month : Nat
  day : Nat
deriving DecidableEq, Repr

/-- Gregorian leap-year rule, as in Python's `calendar.isleap`. -/
def isLeapYear (y : Nat) : Bool :=
  (y % 4 == 0 && y % 100 != 0) || y % 400 == 0

/-- Days in the months strictly before month `m` of a non-leap year. -/
def daysBeforeMonth (m : Nat) : Nat :=
  match m with
  | 1 => 0 | 2 => 31 | 3 => 59 | 4 => 90 | 5 => 120 | 6 => 151
  | 7 => 181 | 8 => 212 | 9 => 243 | 10 => 273 | 11 => 304 | 12 => 334
  | _ => 0

/-- Python's `date.toordinal`: day count in the proleptic Gregorian
calendar, with day 1 = 0001-01-01. -/
def Date.toOrdinal (d : Date) : Nat :=
  let y := d.year - 1
  365 * y + y / 4 - y / 100 + y / 400 + daysBeforeMonth d.month
    + (if 2 < d.month ∧ isLeapYear d.year then 1 else 0) + d.day

/-- Python date subtraction `(a - b).days`. -/
def daysDiff (a b : Date) : Int :=
  (a.toOrdinal : Int) - (b.toOrdinal : Int)

/-! ## Data model (`models.py`) -/

/-- `models.Kid`. -/
structure Kid where
  id : String
  name : String
  points : Int := 0
deriving DecidableEq, Repr

/-- `models.LedgerEntry`. -/
structure LedgerEntry where
  ts : Nat
  kid_id : String
  delta : Int
  reason : String
  kind : String
deriving DecidableEq, Repr

/-- `models.Reward`. -/
structure Reward where
  id : String
  title : String
  description : String := ""
  create_calendar_event : Bool := true
  calendar_duration_hours : Int := 2
  cost : Option Int := none
  required_completions : Option Nat := none
  required_streak_days : Option Nat := none
  required_chore_type : Option String := none
deriving DecidableEq, Repr

/-- `Reward.is_point_based`. -/
def Reward.is_point_based (r : Reward) : Bool := r.cost.isSome

/-- `Reward.is_completion_based`. -/
def Reward.is_completion_based (r : Reward) : Bool := r.required_completions.isSome

/-- `Reward.is_streak_based`. -/
def Reward.is_streak_based (r : Reward) : Bool := r.required_streak_days.isSome

/-- `models.PendingChore`. -/
structure PendingChore where
  todo_uid : String
  kid_id : String
  title : String
  points : Int
  created_ts : Nat
  status : String := "pending"
  completed_ts : Option Nat := none
  approved_ts : Option Nat := none
  chore_type : Option String := none
deriving DecidableEq, Repr

/-- `models.PendingApproval`. -/
structure PendingApproval where
  id : String
  todo_uid : String
  kid_id : String
  title : String
  points : Int
  completed_ts : Nat
  status : String := "pending_approval"
deriving DecidableEq, Repr

/-- `models.TodoItemModel`. -/
structure TodoItemModel where
  uid : String
  summary : String
  status : String
  kid_id : String
  created_ts : Nat
deriving DecidableEq, Repr

/-- `models.RewardProgress`. -/
structure RewardProgress where
  kid_id : String
  reward_id : String
  current_completions : Nat := 0
  current_streak : Nat := 0
  last_completion_date : Option Date := none
  completed : Bool := false
  completion_date : Option Nat := none
deriving DecidableEq, Repr

/-- `models.RecurringChore`. -/
structure RecurringChore where
  id : String
  title : String
  points : Int
  kid_id : String
  schedule_type : String
  day_of_week : Option Nat := none
  enabled : Bool := true
  created_ts : Nat := 0
  chore_type : Option String := none
deriving DecidableEq, Repr

/-- `models.StorageModel`: the coordinator's whole mutable aggregate. -/
structure StorageModel where
  kids : Dict Kid := []
  ledger : List LedgerEntry := []
  rewards : Dict Reward := []
  pending_chores : Dict PendingChore := []
  recurring_chores : Dict RecurringChore := []
  pending_approvals : Dict PendingApproval := []
  todo_items : List TodoItemModel := []
  reward_progress : Dict RewardProgress := []
deriving DecidableEq, Repr

/-! ## Kids and points (`coordinator.py`, `ensure_kid` / `get_points` /
`add_points` / `remove_points`) -/

/-- `SimpleChoresCoordinator.ensure_kid`. -/
def ensure_kid (m : StorageModel) (kid_id : String) (name : Option String) : StorageModel :=
  if (dictGet m.kids kid_id).isSome then m
  else { m with kids := dictSet m.kids kid_id { id := kid_id, name := name.getD kid_id } }

/-- `SimpleChoresCoordinator.get_points`. -/
def get_points (m : StorageModel) (kid_id : String) : Int :=
  match dictGet m.kids kid_id with
  | some k => k.points
  | none => 0

/-- `SimpleChoresCoordinator.add_points`: create the kid if needed, add the
amount to its balance and append one ledger entry. -/
def add_points (m : StorageModel) (now : Nat) (kid_id : String) (amount : Int)
    (reason : String) (kind : String) : StorageModel :=
  let m₁ :=
    if (dictGet m.kids kid_id).isSome then m
    else { m with kids := dictSet m.kids kid_id { id := kid_id, name := kid_id } }
  let m₂ :=
    match dictGet m₁.kids kid_id with
    | some k => { m₁ with kids := dictSet m₁.kids kid_id { k with points := k.points + amount } }
    | none => m₁
  let entry : LedgerEntry :=
    { ts := now, kid_id := kid_id, delta := amount, reason := reason, kind := kind }
  { m₂ with ledger := m₂.ledger ++ [entry] }

/-- `SimpleChoresCoordinator.remove_points`: `add_points` with `-abs(amount)`. -/
def remove_points (m : StorageModel) (now : Nat) (kid_id : String) (amount : Int)
    (reason : String) (kind : String) : StorageModel :=
  add_points m now kid_id (-|amount|) reason kind

/-! ## Reward progress engine (`coordinator.py`, `update_reward_progress`) -/

/-- `SimpleChoresCoordinator._get_progress_key`: `f"\x7bkid_id\x7d_\x7breward_id\x7d"`. -/
def progress_key (kid_id : String) (reward_id : String) : String :=
  kid_id ++ "_" ++ reward_id

/-- `SimpleChoresCoordinator._ensure_reward_progress`: create a fresh
progress record under the key if absent and return the stored record. -/
def ensure_reward_progress (rp : Dict RewardProgress) (kid_id : String) (reward_id : String) :
    Dict RewardProgress × RewardProgress :=
  let key := progress_key kid_id reward_id
  match dictGet rp key with
  | some p => (rp, p)
  | none =>
    let p : RewardProgress := { kid_id := kid_id, reward_id := reward_id }
    (dictSet rp key p, p)

/-- The guard `reward.required_chore_type and reward.required_chore_type != chore_type`:
true when the required type is a non-empty string (Python truthiness) that the
completion's chore type does not match. -/
def choreTypeMismatch (required : Option String) (chore_type : Option String) : Bool :=
  match required with
  | none => false
  | some s => s ≠ "" && chore_type ≠ some s

/-- One iteration of the `for reward in self.model.rewards.values()` loop of
`update_reward_progress`, threading the progress dict and the
`achieved_rewards` accumulator. -/
def processReward (kid_id : String) (chore_type : Option String) (completed_date : Date)
    (now : Nat) (acc : Dict RewardProgress × List String) (reward : Reward) :
    Dict RewardProgress × List String :=
  let (rp, achieved) := acc
  if reward.is_point_based then acc
  else if choreTypeMismatch reward.required_chore_type chore_type then acc
  else
    let key := progress_key kid_id reward.id
    let (rp₁, progress) := ensure_reward_progress rp kid_id reward.id
    if progress.completed then (rp₁, achieved)
    else if reward.is_completion_based then
      let progress := { progress with current_completions := progress.current_completions + 1 }
      if reward.required_completions.getD 0 ≤ progress.current_completions then
        let progress := { progress with completed := true, completion_date := some now }
        (dictSet rp₁ key progress, achieved ++ [reward.id])
      else
        (dictSet rp₁ key progress, achieved)
    else if reward.is_streak_based then
      let streak :=
        match progress.last_completion_date with
        | some last =>
          let diff := daysDiff completed_date last
          if diff = 1 then progress.current_streak + 1
          else if diff = 0 then progress.current_streak
          else 1
        | none => 1
      let progress :=
        { progress with current_streak := streak, last_completion_date := some completed_date }
      if reward.required_streak_days.getD 0 ≤ progress.current_streak then
        let progress := { progress with completed := true, completion_date := some now }
        (dictSet rp₁ key progress, achieved ++ [reward.id])
      else
        (dictSet rp₁ key progress, achieved)
    else (rp₁, achieved)

/-- `SimpleChoresCoordinator.update_reward_progress`: fold the loop body over
the rewards in insertion order; returns the updated model and the list of
newly achieved reward ids. -/
def update_reward_progress (m : StorageModel) (now : Nat) (kid_id : String)
    (chore_type : Option String) (completed_date : Date) : StorageModel × List String :=
  let (rp, achieved) :=
    m.rewards.foldl (fun acc kv => processReward kid_id chore_type completed_date now acc kv.2)
      (m.reward_progress, [])
  ({ m with reward_progress := rp }, achieved)

/-! ## Chores (`coordinator.py`) -/

/-- `SimpleChoresCoordinator.create_pending_chore`; the generated
`todo_uid` is supplied by the environment. -/
def create_pending_chore (m : StorageModel) (now : Nat) (todo_uid : String) (kid_id : String)
    (title : String) (points : Int) (chore_type : Option String) : StorageModel :=
  let chore : PendingChore :=
    { todo_uid := todo_uid, kid_id := kid_id, title := title, points := points,
      created_ts := now, chore_type := chore_type }
  { m with pending_chores := dictSet m.pending_chores todo_uid chore }

/-- `SimpleChoresCoordinator.complete_chore_by_uid`: pop the chore, award its
points and update reward progress with today's date. -/
def complete_chore_by_uid (m : StorageModel) (now : Nat) (today : Date) (todo_uid : String) :
    StorageModel × Bool :=
  match dictGet m.pending_chores todo_uid with
  | some chore =>
    let m₁ := { m with pending_chores := dictPop m.pending_chores todo_uid }
    let m₂ := add_points m₁ now chore.kid_id chore.points ("Chore: " ++ chore.title) "earn"
    let m₃ := (update_reward_progress m₂ now chore.kid_id chore.chore_type today).1
    (m₃, true)
  | none => (m, false)

/-! ## Parental approval (`coordinator.py`) -/

/-- `SimpleChoresCoordinator.request_approval`; the generated `approval_id`
is supplied by the environment. Returns the approval id on success, `none`
for an unknown uid or a chore whose status is not `"pending"`. -/
def request_approval (m : StorageModel) (now : Nat) (approval_id : String) (todo_uid : String) :
    StorageModel × Option String :=
  match dictGet m.pending_chores todo_uid with
  | some chore =>
    if chore.status ≠ "pending" then (m, none)
    else
      let approval : PendingApproval :=
        { id := approval_id, todo_uid := todo_uid, kid_id := chore.kid_id,
          title := chore.title, points := chore.points, completed_ts := now }
      let chore' := { chore with status := "completed", completed_ts := some now }
      let m₁ := { m with pending_chores := dictSet m.pending_chores todo_uid chore',
                         pending_approvals := dictSet m.pending_approvals approval_id approval }
      (m₁, some approval_id)
  | none => (m, none)

/-- `SimpleChoresCoordinator.approve_chore`: award the snapshotted points,
update reward progress with today's date and the originating chore's type
tag, mark the approval and the chore `"approved"`. The only failure check the
code performs is membership of the approval id in `pending_approvals`. -/
def approve_chore (m : StorageModel) (now : Nat) (today : Date) (approval_id : String) :
    StorageModel × Bool :=
  match dictGet m.pending_approvals approval_id with
  | some approval =>
    let m₁ := add_points m now approval.kid_id approval.points
      ("Approved: " ++ approval.title) "earn"
    let chore_type :=
      match dictGet m₁.pending_chores approval.todo_uid with
      | some c => c.chore_type
      | none => none
    let m₂ := (update_reward_progress m₁ now approval.kid_id chore_type today).1
    let approval' := { approval with status := "approved" }
    let m₃ := { m₂ with pending_approvals := dictSet m₂.pending_approvals approval_id approval' }
    let m₄ :=
      match dictGet m₃.pending_chores approval.todo_uid with
      | some c =>
        let c' := { c with status := "approved", approved_ts := some now }
        { m₃ with pending_chores := dictSet m₃.pending_chores approval.todo_uid c' }
      | none => m₃
    (m₄, true)
  | none => (m, false)

/-- `SimpleChoresCoordinator.reject_chore`: mark the approval and the chore
`"rejected"`; no points, no reward progress. -/
def reject_chore (m : StorageModel) (approval_id : String) : StorageModel × Bool :=
  match dictGet m.pending_approvals approval_id with
  | some approval =>
    let approval' := { approval with status := "rejected" }
    let m₁ := { m with pending_approvals := dictSet m.pending_approvals approval_id approval' }
    let m₂ :=
      match dictGet m₁.pending_chores approval.todo_uid with
      | some c =>
        let c' := { c with status := "rejected" }
        { m₁ with pending_chores := dictSet m₁.pending_chores approval.todo_uid c' }
      | none => m₁
    (m₂, true)
  | none => (m, false)

/-! ## Point-reward claim path (`__init__.py`, `_claim_reward`) -/

/-- The state mutations of the `_claim_reward` service handler on the
point-based path: `ensure_kid`, then — when the reward exists, is point
based, has a cost and the balance suffices — `remove_points` with reason
`"Reward: \x7btitle\x7d"` and kind `"spend"`. All failing checks raise after at
most the `ensure_kid` mutation. -/
def claim_point_reward (m : StorageModel) (now : Nat) (kid : String) (reward_id : String) :
    StorageModel :=
  let m₁ := ensure_kid m kid none
  match dictGet m₁.rewards reward_id with
  | some reward =>
    if reward.is_point_based then
      match reward.cost with
      | some cost =>
        if get_points m₁ kid < cost then m₁
        else remove_points m₁ now kid cost ("Reward: " ++ reward.title) "spend"
      | none => m₁
    else m₁
  | none => m₁

/-! ## Operation sequences and the ledger invariant -/

/-- The balance-mutating and bookkeeping operations a caller can issue, each
carrying the environment inputs (timestamps, generated ids) its source
function consumes. `manualAdjust` is the `add_points`/`remove_points`
service path, which always passes kind `"adjust"`. -/
inductive Op where
  | ensureKid (kid_id : String) (name : Option String)
  | addPoints (now : Nat) (kid_id : String) (amount : Int) (reason : String) (kind : String)
  | removePoints (now : Nat) (kid_id : String) (amount : Int) (reason : String) (kind : String)
  | manualAdjust (now : Nat) (kid_id : String) (amount : Int) (reason : String)
  | createChore (now : Nat) (todo_uid : String) (kid_id : String) (title : String)
      (points : Int) (chore_type : Option String)
  | completeChore (now : Nat) (today : Date) (todo_uid : String)
  | requestApproval (now : Nat) (approval_id : String) (todo_uid : String)
  | approveChore (now : Nat) (today : Date) (approval_id : String)
  | rejectChore (approval_id : String)
  | claimPointReward (now : Nat) (kid : String) (reward_id : String)
deriving Repr

/-- Apply one operation to the aggregate. -/
def applyOp (m : StorageModel) : Op → StorageModel
  | .ensureKid kid_id name => ensure_kid m kid_id name
  | .addPoints now kid_id amount reason kind => add_points m now kid_id amount reason kind
  | .removePoints now kid_id amount reason kind => remove_points m now kid_id amount reason kind
  | .manualAdjust now kid_id amount reason => add_points m now kid_id amount reason "adjust"
  | .createChore now todo_uid kid_id title points chore_type =>
      create_pending_chore m now todo_uid kid_id title points chore_type
  | .completeChore now today todo_uid => (complete_chore_by_uid m now today todo_uid).1
  | .requestApproval now approval_id todo_uid => (request_approval m now approval_id todo_uid).1
  | .approveChore now today approval_id => (approve_chore m now today approval_id).1
  | .rejectChore approval_id => (reject_chore m approval_id).1
  | .claimPointReward now kid reward_id => claim_point_reward m now kid reward_id

/-- Apply a sequence of operations in order. -/
def applyOps (m : StorageModel) : List Op → StorageModel
  | [] => m
  | op :: rest => applyOps (applyOp m op) rest

/-- Sum of the deltas of the ledger entries belonging to one kid. -/
def ledgerSum (ledger : List LedgerEntry) (kid_id : String) : Int :=
  ((ledger.filter fun e => e.kid_id = kid_id).map LedgerEntry.delta).sum

/-- The ledger-balance invariant: every kid's balance is the sum of its
ledger deltas (kids without a record have balance 0 and no entries). -/
def ledgerInv (m : StorageModel) : Prop :=
  ∀ c : String, get_points m c = ledgerSum m.ledger c

/-! ## Test fixtures: concrete scenarios used by the claims -/

/-- A completion-based reward (cost-free). -/
def mkCompletionReward (rid : String) (title : String) (n : Nat) (ct : Option String) : Reward :=
  { id := rid, title := title, required_completions := some n, required_chore_type := ct }

/-- A streak-based reward (cost-free). -/
def mkStreakReward (rid : String) (title : String) (k : Nat) (ct : Option String) : Reward :=
  { id := rid, title := title, required_streak_days := some k, required_chore_type := ct }

/-- A model holding a single reward and nothing else. -/
def oneRewardModel (r : Reward) : StorageModel :=
  { rewards := [(r.id, r)] }

/-- Iterate `update_reward_progress` with a fixed completion context. -/
def iterUpdate (now : Nat) (kid : String) (ct : Option String) (d : Date) (m : StorageModel) :
    Nat → StorageModel
  | 0 => m
  | i + 1 => (update_reward_progress (iterUpdate now kid ct d m i) now kid ct d).1

/-- A model whose single pending approval has already been approved once:
`alice` holds the 10 points awarded then, and the approval record's status
is `"approved"`. -/
def alreadyApprovedModel : StorageModel :=
  let entry : LedgerEntry :=
    { ts := 0, kid_id := "alice", delta := 10, reason := "Approved: Clean room", kind := "earn" }
  let approval : PendingApproval :=
    { id := "a1", todo_uid := "t1", kid_id := "alice", title := "Clean room", points := 10,
      completed_ts := 0, status := "approved" }
  { kids := [("alice", { id := "alice", name := "alice", points := 10 })],
    ledger := [entry],
    pending_approvals := [("a1", approval)] }

/-- Like `alreadyApprovedModel` but the approval was rejected: no points
were ever awarded. -/
def alreadyRejectedModel : StorageModel :=
  let approval : PendingApproval :=
    { id := "a1", todo_uid := "t1", kid_id := "alice", title := "Clean room", points := 10,
      completed_ts := 0, status := "rejected" }
  { kids := [("alice", { id := "alice", name := "alice", points := 0 })],
    pending_approvals := [("a1", approval)] }

/-- A model with one still-pending chore for `alice`. -/
def pendingChoreModel : StorageModel :=
  let chore : PendingChore :=
    { todo_uid := "t1", kid_id := "alice", title := "Clean room", points := 10, created_ts := 0 }
  { kids := [("alice", { id := "alice", name := "alice", points := 0 })],
    pending_chores := [("t1", chore)] }

/-- The pending approval of `pendingApprovalModel`. -/
def waitingApproval : PendingApproval :=
  { id := "ap1", todo_uid := "t1", kid_id := "alice", title := "Clean room", points := 10,
    completed_ts := 1 }

/-- The claimed chore of `pendingApprovalModel`. -/
def completedChore : PendingChore :=
  { todo_uid := "t1", kid_id := "alice", title := "Clean room", points := 10, created_ts := 0,
    status := "completed", completed_ts := some 1 }

/-- A model in which `alice` has claimed her chore: the chore is
`"completed"` and the approval is waiting in `"pending_approval"`. -/
def pendingApprovalModel : StorageModel :=
  { kids := [("alice", { id := "alice", name := "alice", points := 0 })],
    pending_chores := [("t1", completedChore)],
    pending_approvals := [("ap1", waitingApproval)] }

/-- End-to-end scenario state: from an empty aggregate, create child
`alice` (balance 0), create the pending chore `Clean room` worth 10 points,
request approval, then approve it. -/
def endToEndModel : StorageModel :=
  (approve_chore (request_approval (create_pending_chore (ensure_kid {} "alice" none)
    0 "t1" "alice" "Clean room" 10 none) 1 "ap1" "t1").1 2 (Date.mk 2024 1 2) "ap1").1

/-- Streak scenario: the default `bed_streak`-style reward, 7 consecutive
days of the `"bed"` chore. -/
def streakModel : StorageModel :=
  oneRewardModel (mkStreakReward "bed_streak" "Make bed" 7 (some "bed"))

/-- One completion of a `"bed"` chore on date `d` by kid `"a"`. -/
def streakStep (d : Date) (m : StorageModel) : StorageModel :=
  (update_reward_progress m 0 "a" (some "bed") d).1

/-- The expected progress record after `i` completions of an `N`-completion
reward (fixture for the threshold claim). -/
def progressAt (kid : String) (rid : String) (now : Nat) (N : Nat) (i : Nat) : RewardProgress :=
  { kid_id := kid, reward_id := rid, current_completions := i,
    completed := decide (N ≤ i), completion_date := if N ≤ i then some now else none }

/-- A reward that violates the one-mode-only expectation: it carries a cost
and a completion requirement at once. -/
def dualReward : Reward :=
  { id := "both", title := "Both", cost := some 20, required_completions := some 5 }

/-! ## Dictionary lemmas -/

theorem dictGet_dictSet_self {α : Type} (m : Dict α) (k : String) (v : α) :
    dictGet (dictSet m k v) k = some v := by
  induction m with
  | nil => simp [dictGet, dictSet]
  | cons hd tl ih =>
    obtain ⟨k', v'⟩ := hd
    by_cases h : k' = k <;> simp [dictGet, dictSet, h, ih]

theorem dictGet_dictSet_ne {α : Type} (m : Dict α) (k k' : String) (v : α) (h : k ≠ k') :
    dictGet (dictSet m k v) k' = dictGet m k' := by
  induction m with
  | nil => simp [dictGet, dictSet, h]
  | cons hd tl ih =>
    obtain ⟨k₀, v₀⟩ := hd
    by_cases h₀ : k₀ = k
    · subst h₀; simp [dictGet, dictSet, h]
    · simp only [dictSet, if_neg h₀, dictGet]
      by_cases h₁ : k₀ = k' <;> simp [h₁, ih]

theorem dictGet_dictPop_ne {α : Type} (m : Dict α) (k k' : String) (h : k ≠ k') :
    ∀ v, dictGet m k' = some v → dictGet (dictPop m k) k' = some v := by
  induction m with
  | nil => intro v hv; simp [dictGet] at hv
  | cons hd tl ih =>
    intro v hv
    obtain ⟨k₀, v₀⟩ := hd
    by_cases h₀ : k₀ = k
    · subst h₀
      simp only [dictGet, if_neg h] at hv
      simpa [dictPop] using hv
    · simp only [dictPop, if_neg h₀, dictGet]
      by_cases h₁ : k₀ = k'
      · simp only [dictGet, if_pos h₁] at hv
        simp [h₁, hv]
      · simp only [dictGet, if_neg h₁] at hv ⊢
        exact ih v hv

/-! ## Points lemmas -/

theorem get_points_congr {m m' : StorageModel} (h : m'.kids = m.kids) (c : String) :
    get_points m' c = get_points m c := by
  simp [get_points, h]

theorem add_points_kids_self (m : StorageModel) (now : Nat) (c : String) (amount : Int)
    (reason kind : String) :
    get_points (add_points m now c amount reason kind) c = get_points m c + amount := by
  rcases h : dictGet m.kids c with _ | k0
  · simp [add_points, get_points, h, dictGet_dictSet_self]
  · simp [add_points, get_points, h, dictGet_dictSet_self]

theorem add_points_kids_ne (m : StorageModel) (now : Nat) (c c' : String) (amount : Int)
    (reason kind : String) (hne : c' ≠ c) :
    get_points (add_points m now c amount reason kind) c' = get_points m c' := by
  have hne' : c ≠ c' := fun h => hne h.symm
  rcases h : dictGet m.kids c with _ | k0
  · simp [add_points, get_points, h, dictGet_dictSet_self, dictGet_dictSet_ne _ _ _ _ hne']
  · simp [add_points, get_points, h, dictGet_dictSet_self, dictGet_dictSet_ne _ _ _ _ hne']

theorem add_points_ledger (m : StorageModel) (now : Nat) (c : String) (amount : Int)
    (reason kind : String) :
    (add_points m now c amount reason kind).ledger = m.ledger ++
      [{ ts := now, kid_id := c, delta := amount, reason := reason, kind := kind }] := by
  rcases h : dictGet m.kids c with _ | k0 <;> simp [add_points, h, dictGet_dictSet_self]

theorem ledgerSum_append_one (l : List LedgerEntry) (e : LedgerEntry) (c : String) :
    ledgerSum (l ++ [e]) c = ledgerSum l c + (if e.kid_id = c then e.delta else 0) := by
  by_cases h : e.kid_id = c <;> simp [ledgerSum, List.filter_append, h]

theorem ledgerInv_add_points {m : StorageModel} (now : Nat) (c : String) (amount : Int)
    (reason kind : String) (h : ledgerInv m) :
    ledgerInv (add_points m now c amount reason kind) := by
  intro c'
  rw [add_points_ledger, ledgerSum_append_one]
  by_cases hc : c' = c
  · subst hc
    rw [add_points_kids_self, h c']
    simp
  · rw [add_points_kids_ne _ _ _ _ _ _ _ hc, h c',
      if_neg (fun hh : c = c' => hc hh.symm), add_zero]

theorem ensure_kid_ledger (m : StorageModel) (c : String) (name : Option String) :
    (ensure_kid m c name).ledger = m.ledger := by
  by_cases h : (dictGet m.kids c).isSome <;> simp [ensure_kid, h]

theorem get_points_ensure_kid_absent (m : StorageModel) (c : String) (name : Option String)
    (h : dictGet m.kids c = none) :
    get_points (ensure_kid m c name) c = 0 := by
  simp [ensure_kid, get_points, h, dictGet_dictSet_self]

theorem ledgerInv_ensure_kid {m : StorageModel} (c : String) (name : Option String)
    (h : ledgerInv m) : ledgerInv (ensure_kid m c name) := by
  intro c'
  rw [ensure_kid_ledger, ← h c']
  rcases hm : dictGet m.kids c with _ | k0
  · by_cases hc : c' = c
    · subst hc
      rw [get_points_ensure_kid_absent _ _ _ hm]
      simp [get_points, hm]
    · have hc' : c ≠ c' := fun hh => hc hh.symm
      simp [ensure_kid, get_points, hm, dictGet_dictSet_ne _ _ _ _ hc']
  · simp [ensure_kid, hm]

theorem update_reward_progress_kids (m : StorageModel) (now : Nat) (kid : String)
    (ct : Option String) (d : Date) :
    (update_reward_progress m now kid ct d).1.kids = m.kids := rfl

theorem update_reward_progress_ledger (m : StorageModel) (now : Nat) (kid : String)
    (ct : Option String) (d : Date) :
    (update_reward_progress m now kid ct d).1.ledger = m.ledger := rfl

theorem update_reward_progress_chores (m : StorageModel) (now : Nat) (kid : String)
    (ct : Option String) (d : Date) :
    (update_reward_progress m now kid ct d).1.pending_chores = m.pending_chores := rfl

theorem update_reward_progress_approvals (m : StorageModel) (now : Nat) (kid : String)
    (ct : Option String) (d : Date) :
    (update_reward_progress m now kid ct d).1.pending_approvals = m.pending_approvals := rfl

theorem ledgerInv_of_fields {m m' : StorageModel} (hk : m'.kids = m.kids)
    (hl : m'.ledger = m.ledger) (h : ledgerInv m) : ledgerInv m' := by
  intro c
  rw [get_points_congr hk, hl]
  exact h c

theorem add_points_rest (m : StorageModel) (now : Nat) (c : String) (amount : Int)
    (reason kind : String) :
    (add_points m now c amount reason kind).pending_chores = m.pending_chores
    ∧ (add_points m now c amount reason kind).pending_approvals = m.pending_approvals
    ∧ (add_points m now c amount reason kind).rewards = m.rewards
    ∧ (add_points m now c amount reason kind).reward_progress = m.reward_progress := by
  rcases h : dictGet m.kids c with _ | k0 <;>
    simp [add_points, h, dictGet_dictSet_self]

theorem ledgerInv_complete_chore {m : StorageModel} (now : Nat) (today : Date) (uid : String)
    (h : ledgerInv m) : ledgerInv (complete_chore_by_uid m now today uid).1 := by
  unfold complete_chore_by_uid
  dsimp only
  split
  · exact ledgerInv_of_fields rfl rfl
      (ledgerInv_add_points _ _ _ _ _ (ledgerInv_of_fields rfl rfl h))
  · exact h

theorem ledgerInv_request_approval {m : StorageModel} (now : Nat) (aid uid : String)
    (h : ledgerInv m) : ledgerInv (request_approval m now aid uid).1 := by
  unfold request_approval
  dsimp only
  split
  · split
    · exact h
    · exact ledgerInv_of_fields rfl rfl h
  · exact h

theorem ledgerInv_approve_chore {m : StorageModel} (now : Nat) (today : Date) (aid : String)
    (h : ledgerInv m) : ledgerInv (approve_chore m now today aid).1 := by
  unfold approve_chore
  split
  · rename_i a _
    have h1 : ledgerInv (add_points m now a.kid_id a.points ("Approved: " ++ a.title) "earn") :=
      ledgerInv_add_points _ _ _ _ _ h
    dsimp only
    split
    · exact ledgerInv_of_fields rfl rfl h1
    · exact ledgerInv_of_fields rfl rfl h1
  · exact h

theorem ledgerInv_reject_chore {m : StorageModel} (aid : String)
    (h : ledgerInv m) : ledgerInv (reject_chore m aid).1 := by
  unfold reject_chore
  dsimp only
  split
  · dsimp only
    split
    · exact ledgerInv_of_fields rfl rfl h
    · exact ledgerInv_of_fields rfl rfl h
  · exact h

theorem ledgerInv_claim_point_reward {m : StorageModel} (now : Nat) (kid rid : String)
    (h : ledgerInv m) : ledgerInv (claim_point_reward m now kid rid) := by
  have h1 : ledgerInv (ensure_kid m kid none) := ledgerInv_ensure_kid _ _ h
  unfold claim_point_reward
  dsimp only
  split
  · split
    · split
      · split
        · exact h1
        · exact ledgerInv_add_points _ _ _ _ _ h1
      · exact h1
    · exact h1
  · exact h1

theorem ledgerInv_applyOp {m : StorageModel} (op : Op) (h : ledgerInv m) :
    ledgerInv (applyOp m op) := by
  cases op with
  | ensureKid c n => exact ledgerInv_ensure_kid _ _ h
  | addPoints now c a r k => exact ledgerInv_add_points _ _ _ _ _ h
  | removePoints now c a r k => exact ledgerInv_add_points _ _ _ _ _ h
  | manualAdjust now c a r => exact ledgerInv_add_points _ _ _ _ _ h
  | createChore now uid c t p ct => exact ledgerInv_of_fields rfl rfl h
  | completeChore now today uid => exact ledgerInv_complete_chore _ _ _ h
  | requestApproval now aid uid => exact ledgerInv_request_approval _ _ _ h
  | approveChore now today aid => exact ledgerInv_approve_chore _ _ _ h
  | rejectChore aid => exact ledgerInv_reject_chore _ h
  | claimPointReward now kid rid => exact ledgerInv_claim_point_reward _ _ _ h

theorem ledgerInv_applyOps {m : StorageModel} (ops : List Op) (h : ledgerInv m) :
    ledgerInv (applyOps m ops) := by
  induction ops generalizing m with
  | nil => exact h
  | cons op rest ih => exact ih (ledgerInv_applyOp op h)

theorem ledgerInv_empty : ledgerInv {} := fun _ => rfl

/-! ## Claim theorems -/

/-- C2: Ledger-balance invariant. For every child `c`, after any sequence of
the listed operations `get_points c` equals the sum of the ledger deltas for
`c`; `ensure_kid` creates the child with balance 0 and appends no ledger
entry; `add_points` (the single balance-mutation primitive, through which
`remove_points`, chore completion, approval and point-reward claims all
funnel) appends exactly one matching ledger entry. -/
theorem ledger_balance_invariant (m : StorageModel) (ops : List Op) (c : String)
    (name : Option String) (now : Nat) (amt : Int) (r k : String) (h : ledgerInv m) :
    ledgerInv (applyOps m ops)
    ∧ (dictGet m.kids c = none →
        get_points (ensure_kid m c name) c = 0 ∧ (ensure_kid m c name).ledger = m.ledger)
    ∧ (add_points m now c amt r k).ledger
        = m.ledger ++ [{ ts := now, kid_id := c, delta := amt, reason := r, kind := k }] := by
  exact ⟨ledgerInv_applyOps ops h,
    fun hc => ⟨get_points_ensure_kid_absent _ _ _ hc, ensure_kid_ledger _ _ _⟩,
    add_points_ledger _ _ _ _ _ _⟩

/-- Witness for C2: the invariant holds after a concrete operation sequence
starting from the empty aggregate. -/
theorem ledger_balance_invariant_witness :
    ledgerInv (applyOps {} [Op.ensureKid "alice" none, Op.addPoints 1 "alice" 5 "chore" "earn",
      Op.removePoints 2 "alice" 3 "candy" "spend", Op.manualAdjust 3 "alice" 2 "bonus"]) :=
  (ledger_balance_invariant {}
    [Op.ensureKid "alice" none, Op.addPoints 1 "alice" 5 "chore" "earn",
      Op.removePoints 2 "alice" 3 "candy" "spend", Op.manualAdjust 3 "alice" 2 "bonus"]
    "alice" none 0 0 "" "" (fun _ => rfl)).1

/-- C8: `remove_points` is exactly `add_points` with `-abs(amount)`, and for
positive `n` a removal followed by an addition of `n` restores the balance. -/
theorem remove_points_inverse (m : StorageModel) (now now' : Nat) (c : String) (n : Int)
    (reason reason' kind kind' : String) :
    remove_points m now c n reason kind = add_points m now c (-|n|) reason kind
    ∧ (0 < n →
        get_points (add_points (remove_points m now c n reason kind) now' c n reason' kind') c
          = get_points m c) := by
  refine ⟨rfl, fun hn => ?_⟩
  rw [add_points_kids_self, remove_points, add_points_kids_self, abs_of_pos hn]
  ring

/-- Witness for C8 at a concrete model and a positive amount. -/
theorem remove_points_inverse_witness :
    (0 : Int) < 5
    ∧ get_points (add_points (remove_points {} 1 "a" 5 "r" "spend") 2 "a" 5 "r2" "earn") "a"
        = get_points {} "a" :=
  ⟨by decide, (remove_points_inverse {} 1 2 "a" 5 "r" "r2" "spend" "earn").2 (by decide)⟩

/-- C7: `reject_chore` is balance-neutral. It never changes any kid record,
the ledger or the reward progress (so every balance is unchanged); on a known
approval id it returns success and only marks the approval and the referenced
chore `"rejected"`; on an unknown id it returns failure and changes nothing. -/
theorem reject_chore_balance_neutral (m : StorageModel) (aid : String) :
    (reject_chore m aid).1.kids = m.kids
    ∧ (reject_chore m aid).1.ledger = m.ledger
    ∧ (reject_chore m aid).1.reward_progress = m.reward_progress
    ∧ (∀ c, get_points (reject_chore m aid).1 c = get_points m c)
    ∧ (dictGet m.pending_approvals aid = none → reject_chore m aid = (m, false))
    ∧ (∀ a, dictGet m.pending_approvals aid = some a →
        (reject_chore m aid).2 = true
        ∧ dictGet (reject_chore m aid).1.pending_approvals aid
            = some { a with status := "rejected" }
        ∧ (∀ ch, dictGet m.pending_chores a.todo_uid = some ch →
            dictGet (reject_chore m aid).1.pending_chores a.todo_uid
              = some { ch with status := "rejected" })) := by
  rcases ha : dictGet m.pending_approvals aid with _ | a
  · refine ⟨?_, ?_, ?_, ?_, ?_, ?_⟩ <;> simp [reject_chore, ha]
  · rcases hc : dictGet m.pending_chores a.todo_uid with _ | ch
    · refine ⟨?_, ?_, ?_, ?_, ?_, ?_⟩ <;>
        simp [reject_chore, ha, hc, dictGet_dictSet_self, get_points]
    · refine ⟨?_, ?_, ?_, ?_, ?_, ?_⟩ <;>
        simp [reject_chore, ha, hc, dictGet_dictSet_self, get_points]

/-- Witness for C7 at `alreadyApprovedModel` (the inner implications at a
known approval id and a missing chore id). -/
theorem reject_chore_balance_neutral_witness :
    (reject_chore alreadyApprovedModel "a1").2 = true
    ∧ get_points (reject_chore alreadyApprovedModel "a1").1 "alice"
        = get_points alreadyApprovedModel "alice" :=
  ⟨(((reject_chore_balance_neutral alreadyApprovedModel "a1").2.2.2.2.2
      { id := "a1", todo_uid := "t1", kid_id := "alice", title := "Clean room", points := 10,
        completed_ts := 0, status := "approved" } rfl)).1,
   (reject_chore_balance_neutral alreadyApprovedModel "a1").2.2.2.1 "alice"⟩

/-- C1 (code evaluated at the failing input): `approve_chore` checks only
membership of the approval id, not its status, so re-approving an approval
whose status is already `"approved"` — or approving one already
`"rejected"` — succeeds and awards the points again, instead of returning
the failure sentinel with no state change. -/
theorem approve_nonpending_double_award :
    (approve_chore alreadyApprovedModel 1 (Date.mk 2024 1 2) "a1").2 = true
    ∧ get_points (approve_chore alreadyApprovedModel 1 (Date.mk 2024 1 2) "a1").1 "alice" = 20
    ∧ (approve_chore alreadyRejectedModel 1 (Date.mk 2024 1 2) "a1").2 = true
    ∧ get_points (approve_chore alreadyRejectedModel 1 (Date.mk 2024 1 2) "a1").1 "alice" = 10
    := by
  exact ⟨rfl, rfl, rfl, rfl⟩

/-- C3: claiming (`request_approval`) is only legal from `"pending"`. On a
chore whose status is `"completed"`, `"approved"` or `"rejected"` it returns
the null failure indicator and the state — approvals and chore included —
is exactly unchanged; and after a successful claim, a second claim of the
same chore fails with the state untouched while the approval created by the
first claim is still present in `"pending_approval"`. -/
theorem request_approval_only_from_pending (m : StorageModel) (now now₂ : Nat)
    (aid aid₂ uid : String) :
    (∀ chore, dictGet m.pending_chores uid = some chore →
      chore.status = "completed" ∨ chore.status = "approved" ∨ chore.status = "rejected" →
      request_approval m now aid uid = (m, none))
    ∧ (∀ m' aid', request_approval m now aid uid = (m', some aid') →
        request_approval m' now₂ aid₂ uid = (m', none)
        ∧ ∃ a, dictGet m'.pending_approvals aid' = some a ∧ a.status = "pending_approval") := by
  constructor
  · intro chore hch hst
    have hne : chore.status ≠ "pending" := by
      rcases hst with h | h | h <;> simp [h]
    simp [request_approval, hch, hne]
  · intro m' aid' hsucc
    rcases hch : dictGet m.pending_chores uid with _ | chore
    · simp [request_approval, hch] at hsucc
    · by_cases hst : chore.status = "pending"
      · simp only [request_approval, hch, hst, ne_eq, not_true_eq_false, if_false] at hsucc
        rw [Prod.mk.injEq] at hsucc
        obtain ⟨hm', haid⟩ := hsucc
        obtain rfl := Option.some.inj haid
        subst hm'
        refine ⟨?_, ?_⟩
        · have h1 : dictGet (dictSet m.pending_chores uid
              { chore with status := "completed", completed_ts := some now }) uid
              = some { chore with status := "completed", completed_ts := some now } :=
            dictGet_dictSet_self _ _ _
          simp [request_approval, h1]
        · exact ⟨_, dictGet_dictSet_self _ _ _, rfl⟩
      · simp [request_approval, hch, hst] at hsucc

/-- Witness for C3: in a model whose chore was already claimed
(status `"completed"`), a claim fails and changes nothing; and the success
branch applied after a fresh claim from `pendingChoreModel`. -/
theorem request_approval_only_from_pending_witness :
    request_approval pendingApprovalModel 5 "ap2" "t1" = (pendingApprovalModel, none) :=
  (request_approval_only_from_pending pendingApprovalModel 5 0 "ap2" "x" "t1").1
    completedChore rfl (Or.inl rfl)

theorem approve_chore_found (m : StorageModel) (now : Nat) (today : Date) (aid : String)
    (a : PendingApproval) (ch : PendingChore)
    (ha : dictGet m.pending_approvals aid = some a)
    (hch : dictGet m.pending_chores a.todo_uid = some ch) :
    approve_chore m now today aid =
      (let m₁ := add_points m now a.kid_id a.points ("Approved: " ++ a.title) "earn"
       let m₂ := (update_reward_progress m₁ now a.kid_id ch.chore_type today).1
       let out := { m₂ with
         pending_approvals := dictSet m₂.pending_approvals aid { a with status := "approved" },
         pending_chores := dictSet m₂.pending_chores a.todo_uid
           { ch with status := "approved", approved_ts := some now } }
       (out, true)) := by
  have hch' : dictGet (add_points m now a.kid_id a.points
      ("Approved: " ++ a.title) "earn").pending_chores a.todo_uid = some ch := by
    rw [(add_points_rest m now a.kid_id a.points ("Approved: " ++ a.title) "earn").1]
    exact hch
  simp only [approve_chore, ha]
  simp only [update_reward_progress_chores, hch']

/-- C6: approve success path. For every approval id present in
`pending_approvals` (with its originating chore present), `approve_chore`
awards `approval.points` to `approval.kid_id` through the ledger with reason
`"Approved: \x7btitle\x7d"` and kind `"earn"`, updates reward progress with today's
date and the chore's type tag, marks the approval and the chore
`"approved"` with an approved timestamp, and returns success; end to end,
creating `alice`, a 10-point chore, claiming and approving yields balance 10
and chore status `"approved"`. -/
theorem approve_chore_success (m : StorageModel) (now : Nat) (today : Date) (aid : String) :
    (∀ a ch, dictGet m.pending_approvals aid = some a →
      dictGet m.pending_chores a.todo_uid = some ch →
      (approve_chore m now today aid).2 = true
      ∧ get_points (approve_chore m now today aid).1 a.kid_id
          = get_points m a.kid_id + a.points
      ∧ (approve_chore m now today aid).1.ledger = m.ledger ++
          [{ ts := now, kid_id := a.kid_id, delta := a.points,
             reason := "Approved: " ++ a.title, kind := "earn" }]
      ∧ dictGet (approve_chore m now today aid).1.pending_approvals aid
          = some { a with status := "approved" }
      ∧ dictGet (approve_chore m now today aid).1.pending_chores a.todo_uid
          = some { ch with status := "approved", approved_ts := some now }
      ∧ (approve_chore m now today aid).1.reward_progress
          = (update_reward_progress
              (add_points m now a.kid_id a.points ("Approved: " ++ a.title) "earn")
              now a.kid_id ch.chore_type today).1.reward_progress)
    ∧ get_points endToEndModel "alice" = 10
    ∧ (dictGet endToEndModel.pending_chores "t1").map PendingChore.status = some "approved" := by
  refine ⟨?_, rfl, rfl⟩
  intro a ch ha hch
  rw [approve_chore_found m now today aid a ch ha hch]
  refine ⟨rfl, ?_, ?_, ?_, ?_, rfl⟩
  · show get_points (add_points m now a.kid_id a.points ("Approved: " ++ a.title) "earn")
      a.kid_id = get_points m a.kid_id + a.points
    exact add_points_kids_self _ _ _ _ _ _
  · show (add_points m now a.kid_id a.points ("Approved: " ++ a.title) "earn").ledger = _
    exact add_points_ledger _ _ _ _ _ _
  · exact dictGet_dictSet_self _ _ _
  · exact dictGet_dictSet_self _ _ _

/-- Witness for C6 at `pendingApprovalModel`: approving the waiting approval
succeeds and adds the 10 points. -/
theorem approve_chore_success_witness :
    (approve_chore pendingApprovalModel 2 (Date.mk 2024 1 2) "ap1").2 = true
    ∧ get_points (approve_chore pendingApprovalModel 2 (Date.mk 2024 1 2) "ap1").1 "alice"
        = get_points pendingApprovalModel "alice" + 10 :=
  let h := (approve_chore_success pendingApprovalModel 2 (Date.mk 2024 1 2) "ap1").1
    waitingApproval completedChore rfl rfl
  ⟨h.1, h.2.1⟩

/-- C4: streak update rule. For a cost-free, purely streak-based reward that
is not yet completed and whose chore type matches, one completion dated
`cd` stores a progress record whose `last_completion_date` is `cd`
unconditionally, and whose `current_streak` is: incremented when `cd` is
exactly 1 day after the previous date, unchanged when the dates are equal,
and reset to 1 for any other gap or when there is no previous date. Hence
completions on 2024-01-01/02/03 give streak 3, on 2024-01-01 then
2024-01-03 give streak 1, and twice on 2024-01-01 give streak 1. -/
theorem streak_update_rule (kid : String) (ct : Option String) (cd : Date) (now : Nat)
    (rp : Dict RewardProgress) (achieved : List String) (r : Reward) (k : Nat)
    (p : RewardProgress)
    (hc : r.cost = none) (hcomp : r.required_completions = none)
    (hk : r.required_streak_days = some k)
    (hct : choreTypeMismatch r.required_chore_type ct = false)
    (hp : p = (ensure_reward_progress rp kid r.id).2)
    (hdone : p.completed = false) :
    (∃ q, dictGet (processReward kid ct cd now (rp, achieved) r).1 (progress_key kid r.id)
        = some q
      ∧ q.last_completion_date = some cd
      ∧ (p.last_completion_date = none → q.current_streak = 1)
      ∧ (∀ last, p.last_completion_date = some last →
          q.current_streak =
            if daysDiff cd last = 1 then p.current_streak + 1
            else if daysDiff cd last = 0 then p.current_streak
            else 1))
    ∧ (dictGet (streakStep ⟨2024, 1, 3⟩ (streakStep ⟨2024, 1, 2⟩ (streakStep ⟨2024, 1, 1⟩
        streakModel))).reward_progress "a_bed_streak").map RewardProgress.current_streak
        = some 3
    ∧ (dictGet (streakStep ⟨2024, 1, 3⟩ (streakStep ⟨2024, 1, 1⟩
        streakModel)).reward_progress "a_bed_streak").map RewardProgress.current_streak
        = some 1
    ∧ (dictGet (streakStep ⟨2024, 1, 1⟩ (streakStep ⟨2024, 1, 1⟩
        streakModel)).reward_progress "a_bed_streak").map RewardProgress.current_streak
        = some 1 := by
  refine ⟨?_, by decide, by decide, by decide⟩
  subst hp
  have h1 : r.is_point_based = false := by simp [Reward.is_point_based, hc]
  have h2 : r.is_completion_based = false := by simp [Reward.is_completion_based, hcomp]
  have h3 : r.is_streak_based = true := by simp [Reward.is_streak_based, hk]
  rcases he : ensure_reward_progress rp kid r.id with ⟨rp₁, p₂⟩
  rw [he] at hdone
  dsimp only at hdone
  simp [processReward, he, h1, h2, h3, hct, hdone, hk]
  rcases hlast : p₂.last_completion_date with _ | last
  · simp only [hlast]
    split
    · exact ⟨_, dictGet_dictSet_self _ _ _, rfl, fun _ => rfl, fun l hl => Option.noConfusion hl⟩
    · exact ⟨_, dictGet_dictSet_self _ _ _, rfl, fun _ => rfl, fun l hl => Option.noConfusion hl⟩
  · simp only [hlast]
    generalize hS : (if daysDiff cd last = 1 then p₂.current_streak + 1
      else if daysDiff cd last = 0 then p₂.current_streak else 1) = S
    split
    · refine ⟨_, dictGet_dictSet_self _ _ _, rfl, fun hn => Option.noConfusion hn,
        fun l hl => ?_⟩
      obtain rfl := Option.some.inj hl
      exact hS.symm
    · refine ⟨_, dictGet_dictSet_self _ _ _, rfl, fun hn => Option.noConfusion hn,
        fun l hl => ?_⟩
      obtain rfl := Option.some.inj hl
      exact hS.symm

/-- Witness for C4: one streak step on a fresh record stores streak 1 and
the completion date. -/
theorem streak_update_rule_witness :
    ∃ q, dictGet (processReward "a" (some "bed") ⟨2024, 1, 1⟩ 0 ([], [])
        (mkStreakReward "bed_streak" "Make bed" 7 (some "bed"))).1 "a_bed_streak" = some q
      ∧ q.last_completion_date = some ⟨2024, 1, 1⟩
      ∧ q.current_streak = 1 := by
  obtain ⟨q, hq, hd, hn, _⟩ :=
    (streak_update_rule "a" (some "bed") ⟨2024, 1, 1⟩ 0 [] []
      (mkStreakReward "bed_streak" "Make bed" 7 (some "bed")) 7 _ rfl rfl rfl rfl rfl rfl).1
  exact ⟨q, hq, hd, hn rfl⟩

theorem iterUpdate_completion_state (rid title kid : String) (N now : Nat) (d : Date) :
    ∀ i, i ≤ N →
      iterUpdate now kid none d (oneRewardModel (mkCompletionReward rid title N none)) i
        = { oneRewardModel (mkCompletionReward rid title N none) with
            reward_progress :=
              if i = 0 then []
              else [(progress_key kid rid, progressAt kid rid now N i)] } := by
  intro i
  induction i with
  | zero => intro _; rfl
  | succ j ih =>
    intro hj
    have hjN : j ≤ N := Nat.le_of_succ_le hj
    have hjlt : ¬ N ≤ j := Nat.not_le.mpr (Nat.lt_of_succ_le hj)
    simp only [iterUpdate]
    rw [ih hjN]
    rcases j with _ | j'
    · by_cases hthr : N ≤ 1
      · simp [update_reward_progress, processReward, ensure_reward_progress, dictGet, dictSet,
          mkCompletionReward, oneRewardModel, Reward.is_point_based, Reward.is_completion_based,
          choreTypeMismatch, progressAt, hthr]
      · simp [update_reward_progress, processReward, ensure_reward_progress, dictGet, dictSet,
          mkCompletionReward, oneRewardModel, Reward.is_point_based, Reward.is_completion_based,
          choreTypeMismatch, progressAt, hthr]
    · by_cases hthr : N ≤ j' + 1 + 1
      · simp [update_reward_progress, processReward, ensure_reward_progress, dictGet, dictSet,
          mkCompletionReward, oneRewardModel, Reward.is_point_based, Reward.is_completion_based,
          choreTypeMismatch, progressAt, hthr, hjlt]
      · simp [update_reward_progress, processReward, ensure_reward_progress, dictGet, dictSet,
          mkCompletionReward, oneRewardModel, Reward.is_point_based, Reward.is_completion_based,
          choreTypeMismatch, progressAt, hthr, hjlt]

theorem update_completion_achieved (rid title kid : String) (N now : Nat) (d : Date)
    (i : Nat) (hi : i < N) :
    (update_reward_progress
      (iterUpdate now kid none d (oneRewardModel (mkCompletionReward rid title N none)) i)
      now kid none d).2 = if i + 1 = N then [rid] else [] := by
  rw [iterUpdate_completion_state rid title kid N now d i (Nat.le_of_lt hi)]
  have hjlt : ¬ N ≤ i := Nat.not_le.mpr hi
  have hiff : (N ≤ i + 1) ↔ (i + 1 = N) := by omega
  rcases i with _ | j
  · by_cases hthr : N ≤ 1
    · simp [update_reward_progress, processReward, ensure_reward_progress, dictGet, dictSet,
        mkCompletionReward, oneRewardModel, Reward.is_point_based, Reward.is_completion_based,
        choreTypeMismatch, hthr, hiff.mp hthr]
    · simp [update_reward_progress, processReward, ensure_reward_progress, dictGet, dictSet,
        mkCompletionReward, oneRewardModel, Reward.is_point_based, Reward.is_completion_based,
        choreTypeMismatch, hthr]
      omega
  · by_cases hthr : N ≤ j + 1 + 1
    · simp [update_reward_progress, processReward, ensure_reward_progress, dictGet, dictSet,
        mkCompletionReward, oneRewardModel, Reward.is_point_based, Reward.is_completion_based,
        choreTypeMismatch, progressAt, hthr, hjlt, hiff.mp hthr]
    · simp [update_reward_progress, processReward, ensure_reward_progress, dictGet, dictSet,
        mkCompletionReward, oneRewardModel, Reward.is_point_based, Reward.is_completion_based,
        choreTypeMismatch, progressAt, hthr, hjlt]
      omega

theorem update_completion_terminal (rid title kid : String) (N now : Nat) (d : Date)
    (hN : 1 ≤ N) :
    (update_reward_progress
      (iterUpdate now kid none d (oneRewardModel (mkCompletionReward rid title N none)) N)
      now kid none d)
      = (iterUpdate now kid none d (oneRewardModel (mkCompletionReward rid title N none)) N,
         []) := by
  rw [iterUpdate_completion_state rid title kid N now d N (Nat.le_refl N)]
  have hN0 : ¬ N = 0 := by omega
  simp [update_reward_progress, processReward, ensure_reward_progress, dictGet, dictSet,
    mkCompletionReward, oneRewardModel, Reward.is_point_based, Reward.is_completion_based,
    choreTypeMismatch, progressAt, hN0]

theorem iterUpdate_completion_fixed (rid title kid : String) (N now : Nat) (d : Date)
    (hN : 1 ≤ N) :
    ∀ j, iterUpdate now kid none d (oneRewardModel (mkCompletionReward rid title N none)) (N + j)
      = iterUpdate now kid none d (oneRewardModel (mkCompletionReward rid title N none)) N := by
  intro j
  induction j with
  | zero => rfl
  | succ j ih =>
    show (update_reward_progress
      (iterUpdate now kid none d (oneRewardModel (mkCompletionReward rid title N none)) (N + j))
      now kid none d).1 = _
    rw [ih, update_completion_terminal rid title kid N now d hN]

/-- C5: completion-count thresholds. For an `N`-completion reward
(`1 ≤ N`), completions 1 through `N - 1` return an empty achieved list, the
`N`-th returns exactly the reward id and leaves the progress record at `N`
completions with `completed = true`, and from then on every further update
leaves the whole state unchanged and reports nothing achieved (terminal,
idempotent). -/
theorem completion_threshold (rid title kid : String) (N now : Nat) (d : Date) (hN : 1 ≤ N) :
    (∀ i, i + 1 < N →
      (update_reward_progress
        (iterUpdate now kid none d (oneRewardModel (mkCompletionReward rid title N none)) i)
        now kid none d).2 = [])
    ∧ (update_reward_progress
        (iterUpdate now kid none d (oneRewardModel (mkCompletionReward rid title N none)) (N - 1))
        now kid none d).2 = [rid]
    ∧ dictGet (iterUpdate now kid none d
        (oneRewardModel (mkCompletionReward rid title N none)) N).reward_progress
        (progress_key kid rid) = some (progressAt kid rid now N N)
    ∧ (progressAt kid rid now N N).completed = true
    ∧ (∀ j, iterUpdate now kid none d (oneRewardModel (mkCompletionReward rid title N none)) (N + j)
        = iterUpdate now kid none d (oneRewardModel (mkCompletionReward rid title N none)) N)
    ∧ (∀ j, (update_reward_progress
        (iterUpdate now kid none d (oneRewardModel (mkCompletionReward rid title N none)) (N + j))
        now kid none d).2 = []) := by
  refine ⟨?_, ?_, ?_, ?_, iterUpdate_completion_fixed rid title kid N now d hN, ?_⟩
  · intro i hi
    rw [update_completion_achieved rid title kid N now d i (by omega)]
    have hne : ¬ (i + 1 = N) := by omega
    simp [hne]
  · rw [update_completion_achieved rid title kid N now d (N - 1) (by omega)]
    have heq : N - 1 + 1 = N := by omega
    simp [heq]
  · rw [iterUpdate_completion_state rid title kid N now d N (Nat.le_refl N)]
    have hN0 : ¬ N = 0 := by omega
    simp [dictGet, hN0]
  · simp [progressAt]
  · intro j
    rw [iterUpdate_completion_fixed rid title kid N now d hN j,
      update_completion_terminal rid title kid N now d hN]

/-- Witness for C5 with `N = 3`: the third completion achieves the reward. -/
theorem completion_threshold_witness :
    (update_reward_progress
      (iterUpdate 0 "a" none ⟨2024, 1, 1⟩ (oneRewardModel (mkCompletionReward "r1" "R" 3 none)) 2)
      0 "a" none ⟨2024, 1, 1⟩).2 = ["r1"] :=
  (completion_threshold "r1" "R" "a" 3 0 ⟨2024, 1, 1⟩ (by decide)).2.1

theorem string_append_cancel {s a b : String} (h : s ++ a = s ++ b) : a = b := by
  apply String.ext
  have hd := congrArg String.data h
  rw [String.data_append, String.data_append] at hd
  exact List.append_cancel_left hd

theorem progress_key_injective (kid : String) {a b : String} (h : a ≠ b) :
    progress_key kid a ≠ progress_key kid b := by
  intro he
  unfold progress_key at he
  exact h (string_append_cancel he)

theorem ensure_reward_progress_other (rp : Dict RewardProgress) (kid reward_id k : String)
    (hk : progress_key kid reward_id ≠ k) :
    dictGet (ensure_reward_progress rp kid reward_id).1 k = dictGet rp k := by
  unfold ensure_reward_progress
  dsimp only
  split
  · rfl
  · exact dictGet_dictSet_ne _ _ _ _ hk

theorem processReward_skip (kid : String) (ct : Option String) (cd : Date) (now : Nat)
    (acc : Dict RewardProgress × List String) (r : Reward)
    (h : r.is_point_based = true ∨ choreTypeMismatch r.required_chore_type ct = true) :
    processReward kid ct cd now acc r = acc := by
  rcases h with h | h
  · simp [processReward, h]
  · simp [processReward, h]

theorem processReward_shape (kid : String) (ct : Option String) (cd : Date) (now : Nat)
    (rp : Dict RewardProgress) (ach : List String) (r : Reward) :
    processReward kid ct cd now (rp, ach) r = (rp, ach)
    ∨ processReward kid ct cd now (rp, ach) r = ((ensure_reward_progress rp kid r.id).1, ach)
    ∨ (∃ q, processReward kid ct cd now (rp, ach) r
        = (dictSet (ensure_reward_progress rp kid r.id).1 (progress_key kid r.id) q, ach))
    ∨ (∃ q, processReward kid ct cd now (rp, ach) r
        = (dictSet (ensure_reward_progress rp kid r.id).1 (progress_key kid r.id) q,
           ach ++ [r.id])) := by
  by_cases h1 : r.is_point_based = true
  · exact Or.inl (by simp [processReward, h1])
  · by_cases h2 : choreTypeMismatch r.required_chore_type ct = true
    · exact Or.inl (by simp [processReward, h1, h2])
    · rcases he : ensure_reward_progress rp kid r.id with ⟨rp₁, p⟩
      by_cases h3 : p.completed = true
      · refine Or.inr (Or.inl ?_)
        simp [processReward, h1, h2, he, h3]
      · by_cases h4 : r.is_completion_based = true
        · by_cases h5 : r.required_completions.getD 0 ≤ p.current_completions + 1
          · refine Or.inr (Or.inr (Or.inr ⟨{ p with
              current_completions := p.current_completions + 1,
              completed := true, completion_date := some now }, ?_⟩))
            simp [processReward, h1, h2, he, h3, h4, h5]
          · refine Or.inr (Or.inr (Or.inl ⟨{ p with
              current_completions := p.current_completions + 1 }, ?_⟩))
            simp [processReward, h1, h2, he, h3, h4, h5]
        · by_cases h6 : r.is_streak_based = true
          · by_cases h7 : r.required_streak_days.getD 0 ≤ (match p.last_completion_date with
              | some last =>
                if daysDiff cd last = 1 then p.current_streak + 1
                else if daysDiff cd last = 0 then p.current_streak else 1
              | none => 1)
            · refine Or.inr (Or.inr (Or.inr ⟨{ p with
                current_streak := (match p.last_completion_date with
                  | some last =>
                    if daysDiff cd last = 1 then p.current_streak + 1
                    else if daysDiff cd last = 0 then p.current_streak else 1
                  | none => 1),
                last_completion_date := some cd,
                completed := true, completion_date := some now }, ?_⟩))
              simp [processReward, h1, h2, he, h3, h4, h6, h7]
            · refine Or.inr (Or.inr (Or.inl ⟨{ p with
                current_streak := (match p.last_completion_date with
                  | some last =>
                    if daysDiff cd last = 1 then p.current_streak + 1
                    else if daysDiff cd last = 0 then p.current_streak else 1
                  | none => 1),
                last_completion_date := some cd }, ?_⟩))
              simp [processReward, h1, h2, he, h3, h4, h6, h7]
          · refine Or.inr (Or.inl ?_)
            simp [processReward, h1, h2, he, h3, h4, h6]

theorem processReward_other (kid : String) (ct : Option String) (cd : Date) (now : Nat)
    (rp : Dict RewardProgress) (ach : List String) (r : Reward) (rid : String)
    (h : r.id ≠ rid) :
    dictGet (processReward kid ct cd now (rp, ach) r).1 (progress_key kid rid)
      = dictGet rp (progress_key kid rid)
    ∧ (rid ∈ (processReward kid ct cd now (rp, ach) r).2 ↔ rid ∈ ach) := by
  have hkey : progress_key kid r.id ≠ progress_key kid rid := progress_key_injective kid h
  have hens := ensure_reward_progress_other rp kid r.id (progress_key kid rid) hkey
  rcases processReward_shape kid ct cd now rp ach r with hs | hs | ⟨q, hs⟩ | ⟨q, hs⟩ <;>
    rw [hs]
  · exact ⟨rfl, Iff.rfl⟩
  · exact ⟨hens, Iff.rfl⟩
  · exact ⟨by rw [dictGet_dictSet_ne _ _ _ _ hkey]; exact hens, Iff.rfl⟩
  · refine ⟨by rw [dictGet_dictSet_ne _ _ _ _ hkey]; exact hens, ?_⟩
    constructor
    · intro hmem
      rcases List.mem_append.mp hmem with h1 | h1
      · exact h1
      · rw [List.mem_singleton] at h1
        exact absurd h1.symm h
    · intro hmem
      exact List.mem_append.mpr (Or.inl hmem)

theorem foldl_processReward_untouched (kid : String) (ct : Option String) (cd : Date)
    (now : Nat) (rid : String) :
    ∀ (l : List (String × Reward)) (acc : Dict RewardProgress × List String),
      (∀ kv ∈ l, kv.2.id ≠ rid ∨ kv.2.is_point_based = true
          ∨ choreTypeMismatch kv.2.required_chore_type ct = true) →
      dictGet (l.foldl (fun a kv => processReward kid ct cd now a kv.2) acc).1
          (progress_key kid rid)
        = dictGet acc.1 (progress_key kid rid)
      ∧ (rid ∈ (l.foldl (fun a kv => processReward kid ct cd now a kv.2) acc).2
          ↔ rid ∈ acc.2) := by
  intro l
  induction l with
  | nil => exact fun acc _ => ⟨rfl, Iff.rfl⟩
  | cons kv rest ih =>
    intro acc H
    have Hhd := H kv (List.mem_cons_self kv rest)
    have Htl : ∀ p ∈ rest, p.2.id ≠ rid ∨ p.2.is_point_based = true
        ∨ choreTypeMismatch p.2.required_chore_type ct = true :=
      fun p hp => H p (List.mem_cons_of_mem kv hp)
    have hstep : dictGet (processReward kid ct cd now acc kv.2).1 (progress_key kid rid)
        = dictGet acc.1 (progress_key kid rid)
        ∧ (rid ∈ (processReward kid ct cd now acc kv.2).2 ↔ rid ∈ acc.2) := by
      rcases Hhd with h | h
      · obtain ⟨rp, ach⟩ := acc
        exact processReward_other kid ct cd now rp ach kv.2 rid h
      · rw [processReward_skip kid ct cd now acc kv.2 h]
        exact ⟨rfl, Iff.rfl⟩
    have hih := ih (processReward kid ct cd now acc kv.2) Htl
    rw [List.foldl_cons]
    exact ⟨hih.1.trans hstep.1, hih.2.trans hstep.2⟩

/-- C9: chore-type filtering. For a reward whose `required_chore_type` is
set (a non-empty string `s`), an `update_reward_progress` call whose chore
type differs from `s` — including a `none` chore type — leaves that
reward's progress record unchanged (creating none) and never reports the
reward achieved. -/
theorem chore_type_filtering (m : StorageModel) (now : Nat) (kid rid s : String)
    (ct : Option String) (d : Date)
    (H : ∀ kv ∈ m.rewards, kv.2.id = rid → kv.2.required_chore_type = some s)
    (hs : s ≠ "") (hct : ct ≠ some s) :
    dictGet (update_reward_progress m now kid ct d).1.reward_progress (progress_key kid rid)
      = dictGet m.reward_progress (progress_key kid rid)
    ∧ rid ∉ (update_reward_progress m now kid ct d).2 := by
  have H' : ∀ kv ∈ m.rewards, kv.2.id ≠ rid ∨ kv.2.is_point_based = true
      ∨ choreTypeMismatch kv.2.required_chore_type ct = true := by
    intro kv hkv
    by_cases hid : kv.2.id = rid
    · refine Or.inr (Or.inr ?_)
      rw [H kv hkv hid]
      simp [choreTypeMismatch, hs, hct]
    · exact Or.inl hid
  have h := foldl_processReward_untouched kid ct d now rid m.rewards
    (m.reward_progress, []) H'
  refine ⟨h.1, fun hmem => ?_⟩
  have := h.2.mp hmem
  simp at this

/-- Witness for C9: a completion tagged `"dishes"` does not touch the
progress of the `trash_master` reward, which requires `"trash"`. -/
theorem chore_type_filtering_witness :
    dictGet (update_reward_progress
        (oneRewardModel (mkCompletionReward "trash_master" "Trash Master" 10 (some "trash")))
        0 "a" (some "dishes") ⟨2024, 1, 1⟩).1.reward_progress (progress_key "a" "trash_master")
      = dictGet (oneRewardModel
          (mkCompletionReward "trash_master" "Trash Master" 10 (some "trash"))).reward_progress
          (progress_key "a" "trash_master")
    ∧ "trash_master" ∉ (update_reward_progress
        (oneRewardModel (mkCompletionReward "trash_master" "Trash Master" 10 (some "trash")))
        0 "a" (some "dishes") ⟨2024, 1, 1⟩).2 :=
  chore_type_filtering
    (oneRewardModel (mkCompletionReward "trash_master" "Trash Master" 10 (some "trash")))
    0 "a" "trash_master" "trash" (some "dishes") ⟨2024, 1, 1⟩
    (by intro kv hkv _; simp [oneRewardModel, mkCompletionReward] at hkv; subst hkv; rfl)
    (by decide) (by decide)

/-- C10: point-based classification takes precedence, and the one-mode-only
invariant is not enforced. A reward whose `cost` is non-null is skipped by
`update_reward_progress` outright — its progress record is never created or
mutated and it is never reported achieved, even if completion or streak
requirements are also set — while a cost-free reward with both
`required_completions` and `required_streak_days` set goes through the
completion-count branch only (its streak fields stay untouched). -/
theorem point_based_precedence (m : StorageModel) (now : Nat) (kid rid : String)
    (ct : Option String) (d : Date)
    (H : ∀ kv ∈ m.rewards, kv.2.id = rid → (kv.2.cost).isSome = true) :
    (dictGet (update_reward_progress m now kid ct d).1.reward_progress (progress_key kid rid)
        = dictGet m.reward_progress (progress_key kid rid)
      ∧ rid ∉ (update_reward_progress m now kid ct d).2)
    ∧ (∀ (rp : Dict RewardProgress) (ach : List String) (r : Reward) (n k : Nat)
        (p : RewardProgress),
        r.cost = none → r.required_completions = some n → r.required_streak_days = some k →
        choreTypeMismatch r.required_chore_type ct = false →
        p = (ensure_reward_progress rp kid r.id).2 → p.completed = false →
        ∃ q, dictGet (processReward kid ct d now (rp, ach) r).1 (progress_key kid r.id)
            = some q
          ∧ q.current_completions = p.current_completions + 1
          ∧ q.current_streak = p.current_streak
          ∧ q.last_completion_date = p.last_completion_date) := by
  constructor
  · have H' : ∀ kv ∈ m.rewards, kv.2.id ≠ rid ∨ kv.2.is_point_based = true
        ∨ choreTypeMismatch kv.2.required_chore_type ct = true := by
      intro kv hkv
      by_cases hid : kv.2.id = rid
      · exact Or.inr (Or.inl (H kv hkv hid))
      · exact Or.inl hid
    have h := foldl_processReward_untouched kid ct d now rid m.rewards
      (m.reward_progress, []) H'
    refine ⟨h.1, fun hmem => ?_⟩
    have := h.2.mp hmem
    simp at this
  · intro rp ach r n k p hc hn hk hct hp hdone
    subst hp
    have h1 : r.is_point_based = false := by simp [Reward.is_point_based, hc]
    have h2 : r.is_completion_based = true := by simp [Reward.is_completion_based, hn]
    rcases he : ensure_reward_progress rp kid r.id with ⟨rp₁, p₂⟩
    rw [he] at hdone
    dsimp only at hdone
    simp [processReward, he, h1, h2, hct, hdone, hn]
    split
    · exact ⟨_, dictGet_dictSet_self _ _ _, rfl, rfl, rfl⟩
    · exact ⟨_, dictGet_dictSet_self _ _ _, rfl, rfl, rfl⟩

/-- Witness for C10: a reward with both a cost and a completion requirement
is skipped entirely (no progress record appears), and the completion branch
applies to a cost-free dual-requirement reward. -/
theorem point_based_precedence_witness :
    dictGet (update_reward_progress (oneRewardModel dualReward)
        0 "a" none ⟨2024, 1, 1⟩).1.reward_progress (progress_key "a" "both")
      = dictGet (oneRewardModel dualReward).reward_progress (progress_key "a" "both") :=
  (point_based_precedence (oneRewardModel dualReward) 0 "a" "both" none ⟨2024, 1, 1⟩
    (by intro kv hkv _; simp [oneRewardModel, dualReward] at hkv; subst hkv; rfl)).1.1

end SimpleChores
